import Mathlib

/-!
Shallow embedding of the gameplay and chart-generation core of the
"Enhanced Neon Rhythm Game" (src/main.py), together with theorems settling
the specification claims about it.

Conventions of the embedding:
* Python floats are modelled as rationals (`ℚ`); the comparisons exercised
  by the claims are far from any rounding boundary.
* The mutable `RhythmGame` fields touched by the gameplay core
  (`notes`, `score`, `combo`, `combo_multiplier`) form `GameState`.
* Python exceptions are modelled with `Except PyError`; unbounded `while`
  loops carry explicit fuel, with exhaustion reported as a distinct error.
* The random module is modelled as an oracle `ℕ → ℚ` of unit-interval
  draws together with an explicit draw counter.
-/

namespace RhythmGame

/-- Runtime faults of the Python source that the embedding makes explicit. -/
inductive PyError
  | indexError
  | zeroDivisionError
  | fuelExhausted
deriving DecidableEq, Repr

/-! ## Constants (src/main.py lines 32-54) -/

def WINDOW_HEIGHT : ℚ := 800

def NUM_LANES : Nat := 4

def HIT_ZONE_Y : ℚ := WINDOW_HEIGHT - 100

def HIT_TOLERANCE : ℚ := 50

/-! ## Notes and game state -/

/-- A falling note (the `Note` dataclass, src/main.py lines 57-63). -/
structure Note where
  lane : Nat
  y : ℚ
  hit : Bool
  missed : Bool
deriving DecidableEq, Repr

/-- The gameplay-core fields of the `RhythmGame` object
(src/main.py lines 306-310): the note list, score, combo and multiplier.
`score` starts at 1, `combo` at 0, `combo_multiplier` at 1. -/
structure GameState where
  notes : List Note
  score : ℤ
  combo : Nat
  comboMultiplier : Nat
deriving DecidableEq, Repr

/-- Initial gameplay state of `RhythmGame.__init__`, with a given
starting note list (empty in the source; kept general). -/
def initState (notes : List Note) : GameState :=
  ⟨notes, 1, 0, 1⟩

/-- Per-note effect of one `update_notes` pass (src/main.py lines 395-407):
an active note advances by `note_speed_setting * dt * 60` and becomes
missed when its new position exceeds `HIT_ZONE_Y + HIT_TOLERANCE`;
hit or missed notes are untouched. -/
def updateNote (noteSpeedSetting dt : ℚ) (n : Note) : Note :=
  if !n.hit && !n.missed then
    let y2 := n.y + noteSpeedSetting * dt * 60
    if HIT_ZONE_Y + HIT_TOLERANCE < y2 then ⟨n.lane, y2, n.hit, true⟩
    else ⟨n.lane, y2, n.hit, n.missed⟩
  else n

/-- Whether a note triggers the miss branch of `update_notes` on this pass
(it is active and its advanced position exceeds the threshold). -/
def newlyMissed (noteSpeedSetting dt : ℚ) (n : Note) : Bool :=
  !n.hit && !n.missed &&
    decide (HIT_ZONE_Y + HIT_TOLERANCE < n.y + noteSpeedSetting * dt * 60)

/-- `RhythmGame.update_notes` (src/main.py lines 395-407). The Python loop
sets `combo = 0` and `combo_multiplier = 1` each time a note transitions to
missed, so the net effect on those fields is a reset exactly when some note
newly misses; the score is not touched. -/
def updateNotes (noteSpeedSetting dt : ℚ) (s : GameState) : GameState :=
  let anyMiss := s.notes.any (newlyMissed noteSpeedSetting dt)
  ⟨s.notes.map (updateNote noteSpeedSetting dt),
   s.score,
   if anyMiss then 0 else s.combo,
   if anyMiss then 1 else s.comboMultiplier⟩

/-- The hit condition of `hit_note_in_lane` (src/main.py lines 423-424):
right lane, active, and within `HIT_TOLERANCE` of `HIT_ZONE_Y`. -/
def canHit (lane : Nat) (n : Note) : Bool :=
  n.lane == lane && !n.hit && !n.missed &&
    decide (|n.y - HIT_ZONE_Y| ≤ HIT_TOLERANCE)

/-- The combo-multiplier step function computed inline in
`hit_note_in_lane` (src/main.py lines 430-437). -/
def multiplierOf (combo : Nat) : Nat :=
  if 30 ≤ combo then 4
  else if 20 ≤ combo then 3
  else if 10 ≤ combo then 2
  else 1

/-- The note-list effect of `hit_note_in_lane`: scan the list in order,
mark the first note satisfying `canHit` as hit, and stop (`break`).
Returns the new list and whether a hit occurred. -/
def markFirstHit (lane : Nat) : List Note → List Note × Bool
  | [] => ([], false)
  | n :: rest =>
    if canHit lane n then (⟨n.lane, n.y, true, n.missed⟩ :: rest, true)
    else
      let p := markFirstHit lane rest
      (n :: p.1, p.2)

/-- `RhythmGame.hit_note_in_lane` (src/main.py lines 420-450): on a hit,
increment the combo, recompute the multiplier, and add
`100 * multiplier` to the score, clamped below by 1. -/
def hitNoteInLane (lane : Nat) (s : GameState) : GameState :=
  let p := markFirstHit lane s.notes
  if p.2 then
    let combo := s.combo + 1
    let mult := multiplierOf combo
    ⟨p.1, max 1 (s.score + 100 * mult), combo, mult⟩
  else ⟨p.1, s.score, s.combo, s.comboMultiplier⟩

/-- `RhythmGame.handle_input` (src/main.py lines 409-418), with the set of
pressed lanes supplied by the input collaborator: each pressed lane gets
one `hit_note_in_lane` call, in order. -/
def handleInput (pressedLanes : List Nat) (s : GameState) : GameState :=
  pressedLanes.foldl (fun st l => hitNoteInLane l st) s

/-- `RhythmGame.spawn_note` (src/main.py lines 389-393), with the random
lane supplied by the caller: appends a fresh active note at `y = 0`. -/
def spawnNote (lane : Nat) (s : GameState) : GameState :=
  ⟨s.notes ++ [⟨lane, 0, false, false⟩], s.score, s.combo, s.comboMultiplier⟩

/-- The note-removal filter at the end of `RhythmGame.update`
(src/main.py line 565): keep only notes with `y < WINDOW_HEIGHT + 100`. -/
def removeOldNotes (s : GameState) : GameState :=
  ⟨s.notes.filter (fun n => decide (n.y < WINDOW_HEIGHT + 100)),
   s.score, s.combo, s.comboMultiplier⟩

/-- External inputs of one pass of `RhythmGame.update` (src/main.py lines
545-565): an optional spawned lane (when the spawn interval elapsed), the
frame delta, and the pressed lanes sampled by `handle_input`. -/
structure TickIn where
  spawnLane : Option Nat
  dt : ℚ
  pressedLanes : List Nat
deriving DecidableEq, Repr

/-- One pass of the gameplay part of `RhythmGame.update`: optional spawn,
then `update_notes`, then `handle_input`, then the old-note filter. -/
def gameTick (noteSpeedSetting : ℚ) (inp : TickIn) (s : GameState) : GameState :=
  let s1 := match inp.spawnLane with
    | some l => spawnNote l s
    | none => s
  removeOldNotes (handleInput inp.pressedLanes (updateNotes noteSpeedSetting inp.dt s1))

/-- A whole session: fold `gameTick` over a list of tick inputs. -/
def runTicks (noteSpeedSetting : ℚ) (ticks : List TickIn) (s : GameState) : GameState :=
  ticks.foldl (fun st inp => gameTick noteSpeedSetting inp st) s

/-- A score/combo-relevant operation of the live loop: one `update_notes`
pass or one `hit_note_in_lane` call. -/
inductive GameOp
  | doUpdate (noteSpeedSetting dt : ℚ)
  | doHit (lane : Nat)

/-- Apply one `GameOp`. -/
def applyOp (s : GameState) : GameOp → GameState
  | .doUpdate sp dt => updateNotes sp dt s
  | .doHit lane => hitNoteInLane lane s

/-- Run a sequence of gameplay operations from the initial state. -/
def runOps (notes0 : List Note) (ops : List GameOp) : GameState :=
  ops.foldl applyOp (initState notes0)

/-! ## Performance monitor (src/main.py lines 93-121) -/

/-- The three rendering-quality levels of `PerformanceMonitor`. -/
inductive Quality
  | high
  | medium
  | low
deriving DecidableEq, Repr

/-- State of `PerformanceMonitor`: the frame-duration buffer, the current
quality level, and the time of the last adjustment (initially
`frame_times = []`, `quality_level = "high"`, `last_adjustment = 0`). -/
structure PerfMonitor where
  frameTimes : List ℚ
  qualityLevel : Quality
  lastAdjustment : ℚ
deriving DecidableEq, Repr

/-- The buffer maintenance of `PerformanceMonitor.update` (src/main.py
lines 102-104): append `dt`, then drop the oldest entry when the length
exceeds 60. -/
def pushFrame (frameTimes : List ℚ) (dt : ℚ) : List ℚ :=
  let ft := frameTimes ++ [dt]
  if 60 < ft.length then ft.tail else ft

/-- The `avg_fps = 1.0 / (sum(frame_times) / len(frame_times))` expression
of src/main.py line 109 (meaningful only for a buffer with nonzero sum). -/
def avgFps (frameTimes : List ℚ) : ℚ :=
  1 / (frameTimes.sum / frameTimes.length)

/-- `PerformanceMonitor.update` (src/main.py lines 100-121), with the wall
clock `time.time()` passed in as `currentTime`. When the mean frame time
is zero the Python division raises `ZeroDivisionError`, which the
embedding reports as an error value. -/
def PerfMonitor.update (m : PerfMonitor) (dt currentTime : ℚ) :
    Except PyError PerfMonitor :=
  let ft := pushFrame m.frameTimes dt
  if 2 < currentTime - m.lastAdjustment then
    if ft.sum = 0 then .error .zeroDivisionError
    else
      let f := avgFps ft
      if f < 45 ∧ m.qualityLevel = Quality.high then
        .ok ⟨ft, Quality.medium, currentTime⟩
      else if f < 30 ∧ m.qualityLevel = Quality.medium then
        .ok ⟨ft, Quality.low, currentTime⟩
      else if 55 < f ∧ m.qualityLevel = Quality.medium then
        .ok ⟨ft, Quality.high, currentTime⟩
      else .ok ⟨ft, m.qualityLevel, m.lastAdjustment⟩
  else .ok ⟨ft, m.qualityLevel, m.lastAdjustment⟩

/-- Run `PerformanceMonitor.update` over a sequence of `(dt, currentTime)`
samples, stopping at the first error. -/
def runMonitor (m : PerfMonitor) : List (ℚ × ℚ) → Except PyError PerfMonitor
  | [] => .ok m
  | (dt, now) :: rest =>
    match m.update dt now with
    | .ok m2 => runMonitor m2 rest
    | .error e => .error e

/-! ## Chart generator (src/main.py lines 677-816) -/

/-- A generated chart note: the `time`/`lane`/`energy` fields of the note
dict built in `generate_chart` (the constant `"type": "normal"` field is
omitted). -/
structure ChartNote where
  time : ℚ
  lane : Nat
  energy : ℚ
deriving DecidableEq, Repr

/-- The fields of the audio-analysis dict consumed by `generate_chart`
(`peak_times` and `tempo_changes` are never read there). -/
structure Analysis where
  duration : ℚ
  bpm : ℚ
  energyLevels : List ℚ
deriving DecidableEq, Repr

/-- `ChartGenerator.get_default_analysis` (src/main.py lines 702-710). -/
def getDefaultAnalysis : Analysis :=
  ⟨180, 120, List.replicate 180 (7/10)⟩

/-- The difficulty-to-density table of `generate_chart`
(src/main.py lines 720-727), with fallback 0.6. -/
def densityMultiplier (difficulty : String) : ℚ :=
  if difficulty = "Easy" then 3/10
  else if difficulty = "Normal" then 6/10
  else if difficulty = "Hard" then 9/10
  else if difficulty = "Expert" then 12/10
  else 6/10

/-- Python `int()` applied to a float: truncation toward zero. -/
def pyInt (q : ℚ) : ℤ :=
  if 0 ≤ q then ⌊q⌋ else -⌊-q⌋

/-- Python list subscription with a possibly negative index: negative
indices count from the end, and out-of-range access raises `IndexError`. -/
def pyGet (l : List ℚ) (i : ℤ) : Except PyError ℚ :=
  let j : ℤ := if i < 0 then i + l.length else i
  if 0 ≤ j ∧ j < (l.length : ℤ) then
    match l.get? j.toNat with
    | some x => .ok x
    | none => .error .indexError
  else .error .indexError

/-- Multiply the entry at position `i` of a weight list by `factor`
(`lane_weights[lane] *= factor`; all indices used in the source are in
range). -/
def mulAt (factor : ℚ) : List ℚ → Nat → List ℚ
  | [], _ => []
  | w :: ws, 0 => (w * factor) :: ws
  | w :: ws, i + 1 => w :: mulAt factor ws i

/-- The cumulative-weight draw at the end of `choose_lane_musically`
(src/main.py lines 787-794): return the first index whose running total
reaches `randVal`, falling back to `NUM_LANES - 1`. -/
def cumulativeChoose (randVal : ℚ) : ℚ → Nat → List ℚ → Nat
  | _, _, [] => NUM_LANES - 1
  | cum, i, w :: ws =>
    if randVal ≤ cum + w then i else cumulativeChoose randVal (cum + w) (i + 1) ws

/-- `random.randint(0, n-1)` realised from one unit-interval draw. -/
def randIntBelow (u : ℚ) (n : Nat) : Nat :=
  min (Int.toNat ⌊u * n⌋) (n - 1)

/-- `ChartGenerator.choose_lane_musically` (src/main.py lines 763-794):
penalise the lanes of the last 4 notes within the past 2 seconds by 0.3
each, boost lanes at distance 1 or 3 from the most recent note by 1.5,
then draw a lane proportionally to the weights. Returns the lane and the
advanced random-draw counter (`_bpm` is accepted and ignored, as in the
source). -/
def chooseLaneMusically (currentTime _bpm : ℚ) (existingNotes : List ChartNote)
    (rand : ℕ → ℚ) (k : Nat) : Nat × Nat :=
  let recentNotes := existingNotes.filter (fun n => decide (currentTime - n.time < 2))
  let recentLanes := (recentNotes.drop (recentNotes.length - 4)).map (fun n => n.lane)
  let w0 : List ℚ := List.replicate NUM_LANES 1
  let w1 := recentLanes.foldl (fun ws lane => mulAt (3/10) ws lane) w0
  let w2 := match recentNotes.getLast? with
    | none => w1
    | some lastN =>
      (List.range NUM_LANES).foldl (fun ws (i : Nat) =>
        if ((i : ℤ) - (lastN.lane : ℤ)).natAbs = 1 ∨
           ((i : ℤ) - (lastN.lane : ℤ)).natAbs = 3
        then mulAt (3/2) ws i else ws) w1
  let total := w2.sum
  if total = 0 then (randIntBelow (rand k) NUM_LANES, k + 1)
  else (cumulativeChoose (rand k * total) 0 0 w2, k + 1)

/-- The `while current_time < duration` loop of `generate_chart`
(src/main.py lines 733-758), with explicit fuel. One iteration: read the
energy at `min(int(current_time), len(energy_levels) - 1)` (an
`IndexError` on an empty energy list), draw a Bernoulli trial against
`base_density * energy`, on success append a note at a musically chosen
lane, then advance time by `beat_interval * (0.5 + U(0, 0.5))` scaled by
0.7 for Expert and 1.5 for Easy. -/
def generateChartLoop (rand : ℕ → ℚ) (duration bpm beatInterval baseDensity : ℚ)
    (difficulty : String) (energyLevels : List ℚ) :
    Nat → List ChartNote → ℚ → Nat → Except PyError (List ChartNote)
  | 0, notes, currentTime, _ =>
    if currentTime < duration then .error .fuelExhausted else .ok notes
  | fuel + 1, notes, currentTime, k =>
    if currentTime < duration then
      match pyGet energyLevels (min (pyInt currentTime) ((energyLevels.length : ℤ) - 1)) with
      | .error e => .error e
      | .ok energy =>
        let noteProbability := baseDensity * energy
        let placed := decide (rand k < noteProbability)
        let k1 := k + 1
        let pl := chooseLaneMusically currentTime bpm notes rand k1
        let notes1 := if placed then notes ++ [ChartNote.mk currentTime pl.1 energy] else notes
        let k2 := if placed then pl.2 else k1
        let timeAdvance0 := beatInterval * (1/2 + rand k2 * (1/2))
        let k3 := k2 + 1
        let timeAdvance :=
          if difficulty = "Expert" then timeAdvance0 * (7/10)
          else if difficulty = "Easy" then timeAdvance0 * (3/2)
          else timeAdvance0
        generateChartLoop rand duration bpm beatInterval baseDensity difficulty
          energyLevels fuel notes1 (currentTime + timeAdvance) k3
    else .ok notes

/-- One step of the filtering loop of `remove_duplicate_notes`
(src/main.py lines 806-814), carrying the kept notes in reverse order:
keep a note when its gap to the last kept note is at least `minGap` and
either the gap is at least `2 * minGap` or the lane differs. -/
def dedupFold (minGap : ℚ) (keptRev : List ChartNote) (note : ChartNote) : List ChartNote :=
  match keptRev with
  | [] => [note]
  | last :: _ =>
    if minGap ≤ note.time - last.time ∧
       (minGap * 2 ≤ note.time - last.time ∨ note.lane ≠ last.lane)
    then note :: keptRev
    else keptRev

/-- Stable insertion of a note into a time-sorted list, placing it after
all notes with equal or smaller time. -/
def insertByTime (n : ChartNote) : List ChartNote → List ChartNote
  | [] => [n]
  | m :: rest =>
    if m.time ≤ n.time then m :: insertByTime n rest else n :: m :: rest

/-- Stable sort by ascending time (`notes.sort(key=lambda n: n["time"])`;
Python's sort is stable). -/
def sortByTime (notes : List ChartNote) : List ChartNote :=
  notes.foldl (fun acc n => insertByTime n acc) []

/-- `ChartGenerator.remove_duplicate_notes` (src/main.py lines 796-816):
lists of length at most 1 are returned as is; otherwise sort by time,
always keep the first note, and run the gap filter over the rest. -/
def removeDuplicateNotes (notes : List ChartNote) (minGap : ℚ) : List ChartNote :=
  if notes.length ≤ 1 then notes
  else
    match sortByTime notes with
    | [] => []
    | first :: rest => (rest.foldl (dedupFold minGap) [first]).reverse

/-- `ChartGenerator.generate_chart` (src/main.py lines 712-761): read the
summary fields, compute `beat_interval = 60 / bpm` (a `ZeroDivisionError`
when `bpm = 0`), run the generation loop from time 0, and deduplicate the
result with the default `min_gap = 0.1`. -/
def generateChart (rand : ℕ → ℚ) (fuel : Nat) (analysis : Analysis)
    (difficulty : String) : Except PyError (List ChartNote) :=
  let baseDensity := densityMultiplier difficulty
  if analysis.bpm = 0 then .error .zeroDivisionError
  else
    match generateChartLoop rand analysis.duration analysis.bpm (60 / analysis.bpm)
        baseDensity difficulty analysis.energyLevels fuel [] 0 0 with
    | .error e => .error e
    | .ok notes => .ok (removeDuplicateNotes notes (1/10))

/-- Modelled from the spec, for the refinement claim about
`remove_duplicate_notes`: the first kept note seeds a direct recursion in
which each subsequent note is kept exactly when its gap to the previously
kept note is at least `minGap` and either at least `2 * minGap` or on a
different lane. -/
def keepRule (minGap : ℚ) : ChartNote → List ChartNote → List ChartNote
  | _, [] => []
  | last, note :: rest =>
    if minGap ≤ note.time - last.time ∧
       (minGap * 2 ≤ note.time - last.time ∨ note.lane ≠ last.lane)
    then note :: keepRule minGap note rest
    else keepRule minGap last rest

/-- Modelled from the spec: sort by time ascending, always keep the first
note, then apply `keepRule` to the remainder. -/
def dedupSpec (minGap : ℚ) (notes : List ChartNote) : List ChartNote :=
  match sortByTime notes with
  | [] => []
  | first :: rest => first :: keepRule minGap first rest

/-! ## Basic lemmas about note updates -/

theorem updateNote_terminal (sp dt : ℚ) (n : Note)
    (h : n.hit = true ∨ n.missed = true) : updateNote sp dt n = n := by
  rcases h with h | h <;> simp [updateNote, h]

theorem updateNote_active_y (sp dt : ℚ) (n : Note)
    (hh : n.hit = false) (hm : n.missed = false) :
    (updateNote sp dt n).y = n.y + sp * dt * 60 ∧ (updateNote sp dt n).hit = false := by
  simp only [updateNote, hh, hm, Bool.not_false, Bool.and_self, if_true]
  split <;> simp [hh]

theorem foldl_updateNote_of_missed (sp : ℚ) (dts : List ℚ) (n : Note)
    (h : n.missed = true) :
    dts.foldl (fun m dt => updateNote sp dt m) n = n := by
  induction dts with
  | nil => rfl
  | cons dt rest ih =>
    simp only [List.foldl_cons, updateNote_terminal sp dt n (Or.inr h), ih]

theorem foldl_updateNote_y (sp : ℚ) (dts : List ℚ) (n : Note)
    (hh : n.hit = false) (hm : n.missed = false)
    (hactive : (dts.foldl (fun m dt => updateNote sp dt m) n).missed = false) :
    (dts.foldl (fun m dt => updateNote sp dt m) n).y = n.y + sp * dts.sum * 60 := by
  induction dts generalizing n with
  | nil => simp
  | cons dt rest ih =>
    simp only [List.foldl_cons] at hactive ⊢
    by_cases hm1 : (updateNote sp dt n).missed = true
    · rw [foldl_updateNote_of_missed sp rest _ hm1] at hactive
      rw [hactive] at hm1
      exact absurd hm1 (by simp)
    · have hm1' : (updateNote sp dt n).missed = false := by
        simpa using hm1
      have hy := updateNote_active_y sp dt n hh hm
      rw [ih (updateNote sp dt n) hy.2 hm1' hactive, hy.1, List.sum_cons]
      ring

/-! ## C1: frame-rate independence of note advancement -/

/-- C1: note advancement is linear in elapsed time. For a note that starts
active and is still active (not missed) after a sequence of `update_notes`
passes with deltas `dts` (each nonnegative), the final vertical position
equals the position produced by a single `update_notes` pass with
`dt = dts.sum`, for a fixed `note_speed` setting. -/
theorem c1_note_advance_linear (sp : ℚ) (dts : List ℚ) (n : Note)
    (_hdts : ∀ dt ∈ dts, 0 ≤ dt) (hh : n.hit = false) (hm : n.missed = false)
    (hactive : (dts.foldl (fun m dt => updateNote sp dt m) n).missed = false) :
    (dts.foldl (fun m dt => updateNote sp dt m) n).y = (updateNote sp dts.sum n).y := by
  rw [foldl_updateNote_y sp dts n hh hm hactive, (updateNote_active_y sp dts.sum n hh hm).1]

/-- Witness for C1 at a concrete input: `dts = [1, 2]` against a single
pass with `dt = 3`. -/
theorem c1_witness :
    (([(1 : ℚ), 2].foldl (fun m dt => updateNote 1 dt m) ⟨0, 0, false, false⟩).y
      = (updateNote 1 ([(1 : ℚ), 2].sum) ⟨0, 0, false, false⟩).y) :=
  c1_note_advance_linear 1 [1, 2] ⟨0, 0, false, false⟩ (by norm_num) rfl rfl
    (by norm_num [updateNote, HIT_ZONE_Y, HIT_TOLERANCE, WINDOW_HEIGHT])

/-! ## C2: which note a hit attempt consumes -/

theorem markFirstHit_of_none (lane : Nat) (l : List Note)
    (h : ∀ m ∈ l, canHit lane m = false) : markFirstHit lane l = (l, false) := by
  induction l with
  | nil => rfl
  | cons n rest ih =>
    have hn := h n (List.mem_cons_self n rest)
    have hrest := ih (fun m hm => h m (List.mem_cons_of_mem n hm))
    simp [markFirstHit, hn, hrest]

theorem markFirstHit_of_first (lane : Nat) (pre : List Note) (n : Note) (suf : List Note)
    (hpre : ∀ m ∈ pre, canHit lane m = false) (hn : canHit lane n = true) :
    markFirstHit lane (pre ++ n :: suf)
      = (pre ++ Note.mk n.lane n.y true n.missed :: suf, true) := by
  induction pre with
  | nil => simp [markFirstHit, hn]
  | cons m rest ih =>
    have hm := hpre m (List.mem_cons_self m rest)
    have hrest := ih (fun x hx => hpre x (List.mem_cons_of_mem m hx))
    simp [markFirstHit, hm, hrest]

theorem hitNoteInLane_notes (lane : Nat) (s : GameState) :
    (hitNoteInLane lane s).notes = (markFirstHit lane s.notes).1 := by
  unfold hitNoteInLane
  cases h : (markFirstHit lane s.notes).2 <;> simp [h]

/-- C2, amended: per `hit_note_in_lane` call at most one note transitions
to hit, a note transitions only if it is active, in the given lane and
within tolerance of the hit zone, and the note selected is the first
qualifying note in list order (earliest spawn order) — not necessarily the
one nearest to `HIT_ZONE_Y`. -/
theorem c2_first_in_list_order_is_hit (lane : Nat) (s : GameState) :
    ((∀ m ∈ s.notes, canHit lane m = false) → (hitNoteInLane lane s).notes = s.notes) ∧
    (∀ pre n suf, s.notes = pre ++ n :: suf →
      (∀ m ∈ pre, canHit lane m = false) → canHit lane n = true →
      (hitNoteInLane lane s).notes = pre ++ Note.mk n.lane n.y true n.missed :: suf ∧
      n.lane = lane ∧ n.hit = false ∧ n.missed = false ∧
      |n.y - HIT_ZONE_Y| ≤ HIT_TOLERANCE) := by
  constructor
  · intro h
    rw [hitNoteInLane_notes, markFirstHit_of_none lane s.notes h]
  · intro pre n suf hsplit hpre hn
    have hconds := hn
    simp only [canHit, Bool.and_eq_true, beq_iff_eq, Bool.not_eq_true',
      decide_eq_true_eq] at hconds
    refine ⟨?_, hconds.1.1.1, hconds.1.1.2, hconds.1.2, hconds.2⟩
    rw [hitNoteInLane_notes, hsplit, markFirstHit_of_first lane pre n suf hpre hn]

/-- Witness for C2's theorem at a concrete input: a single in-tolerance
note in lane 0 is consumed. -/
theorem c2_witness :
    (hitNoteInLane 0 ⟨[⟨0, 700, false, false⟩], 1, 0, 1⟩).notes
        = [Note.mk 0 700 true false] ∧
      (0 : Nat) = 0 ∧ false = false ∧ false = false ∧
      |(700 : ℚ) - HIT_ZONE_Y| ≤ HIT_TOLERANCE :=
  (c2_first_in_list_order_is_hit 0 ⟨[⟨0, 700, false, false⟩], 1, 0, 1⟩).2
    [] ⟨0, 700, false, false⟩ [] rfl (by simp)
    (by norm_num [canHit, HIT_ZONE_Y, HIT_TOLERANCE, WINDOW_HEIGHT])

/-- Counterexample to C2 as stated: with two qualifying notes in lane 0 at
`y = 660` (distance 40 from the hit zone) and `y = 700` (distance 0), the
code consumes the first-listed note at distance 40, not the nearest one. -/
theorem c2_counterexample :
    (hitNoteInLane 0 ⟨[⟨0, 660, false, false⟩, ⟨0, 700, false, false⟩], 1, 0, 1⟩).notes
        = [Note.mk 0 660 true false, Note.mk 0 700 false false] ∧
      canHit 0 ⟨0, 700, false, false⟩ = true ∧
      |(700 : ℚ) - HIT_ZONE_Y| < |(660 : ℚ) - HIT_ZONE_Y| := by
  refine ⟨?_, ?_, ?_⟩
  · rw [hitNoteInLane_notes]
    norm_num [markFirstHit, canHit, HIT_ZONE_Y, HIT_TOLERANCE, WINDOW_HEIGHT]
  · norm_num [canHit, HIT_ZONE_Y, HIT_TOLERANCE, WINDOW_HEIGHT]
  · norm_num [HIT_ZONE_Y, WINDOW_HEIGHT]

/-! ## C3: score monotonicity and multiplier purity -/

theorem score_le_applyOp (s : GameState) (op : GameOp) :
    s.score ≤ (applyOp s op).score := by
  cases op with
  | doUpdate sp dt => simp [applyOp, updateNotes]
  | doHit lane =>
    simp only [applyOp, hitNoteInLane]
    cases h : (markFirstHit lane s.notes).2 <;> simp [h]

theorem one_le_score_applyOp (s : GameState) (op : GameOp) (h : 1 ≤ s.score) :
    1 ≤ (applyOp s op).score := by
  cases op with
  | doUpdate sp dt => simpa [applyOp, updateNotes] using h
  | doHit lane =>
    simp only [applyOp, hitNoteInLane]
    cases hb : (markFirstHit lane s.notes).2 <;> simp [hb, h]

theorem mult_applyOp (s : GameState) (op : GameOp)
    (h : s.comboMultiplier = multiplierOf s.combo) :
    (applyOp s op).comboMultiplier = multiplierOf (applyOp s op).combo := by
  cases op with
  | doUpdate sp dt =>
    simp only [applyOp, updateNotes]
    split <;> simp [h, multiplierOf]
  | doHit lane =>
    simp only [applyOp, hitNoteInLane]
    cases hb : (markFirstHit lane s.notes).2 <;> simp [hb, h]

theorem score_le_foldl (s : GameState) (ops : List GameOp) :
    s.score ≤ (ops.foldl applyOp s).score := by
  induction ops generalizing s with
  | nil => exact le_refl _
  | cons op rest ih =>
    exact le_trans (score_le_applyOp s op) (ih (applyOp s op))

theorem one_le_score_foldl (s : GameState) (ops : List GameOp) (h : 1 ≤ s.score) :
    1 ≤ (ops.foldl applyOp s).score := by
  induction ops generalizing s with
  | nil => exact h
  | cons op rest ih => exact ih _ (one_le_score_applyOp s op h)

theorem mult_foldl (s : GameState) (ops : List GameOp)
    (h : s.comboMultiplier = multiplierOf s.combo) :
    (ops.foldl applyOp s).comboMultiplier = multiplierOf (ops.foldl applyOp s).combo := by
  induction ops generalizing s with
  | nil => exact h
  | cons op rest ih => exact ih _ (mult_applyOp s op h)

/-- C3: along every sequence of gameplay operations (`update_notes` passes
and `hit_note_in_lane` calls) from the initial state (score 1, combo 0,
multiplier 1), the score stays at least 1 and never decreases, and after
every operation the multiplier equals the pure step function
`multiplierOf` of the current combo. -/
theorem c3_score_monotone_multiplier_pure (notes0 : List Note) (ops pre : List GameOp)
    (h : pre <+: ops) :
    1 ≤ (runOps notes0 ops).score ∧
    (runOps notes0 ops).comboMultiplier = multiplierOf (runOps notes0 ops).combo ∧
    (runOps notes0 pre).score ≤ (runOps notes0 ops).score := by
  obtain ⟨suf, rfl⟩ := h
  refine ⟨one_le_score_foldl _ _ (by simp [initState]),
    mult_foldl _ _ (by simp [initState, multiplierOf]), ?_⟩
  rw [runOps, runOps, List.foldl_append]
  exact score_le_foldl _ suf

/-- Witness for C3 at a concrete input: one hit then one miss-producing
`update_notes` pass, against the empty prefix. -/
theorem c3_witness :
    1 ≤ (runOps [⟨0, 700, false, false⟩] [.doHit 0, .doUpdate 1 1]).score ∧
    (runOps [⟨0, 700, false, false⟩] [.doHit 0, .doUpdate 1 1]).comboMultiplier
      = multiplierOf (runOps [⟨0, 700, false, false⟩] [.doHit 0, .doUpdate 1 1]).combo ∧
    (runOps [⟨0, 700, false, false⟩] []).score
      ≤ (runOps [⟨0, 700, false, false⟩] [.doHit 0, .doUpdate 1 1]).score :=
  c3_score_monotone_multiplier_pure [⟨0, 700, false, false⟩]
    [.doHit 0, .doUpdate 1 1] [] List.nil_prefix

/-! ## C4: the miss transition -/

/-- C4: when `update_notes` runs with delta `dt`, an active note whose new
position exceeds `HIT_ZONE_Y + HIT_TOLERANCE` transitions to missed at its
advanced position and is kept in the list, the combo is reset to 0 and the
multiplier to 1, the score is unchanged, and the transition is one-shot:
a later `update_notes` pass with any delta `dt2` leaves the now-missed
note untouched (so its miss, and the associated combo reset, happen only
at the tick where it first crosses the threshold). -/
theorem c4_miss_transition (sp dt dt2 : ℚ) (s : GameState) (n : Note)
    (hn : n ∈ s.notes) (hh : n.hit = false) (hm : n.missed = false)
    (hcross : HIT_ZONE_Y + HIT_TOLERANCE < n.y + sp * dt * 60) :
    (updateNotes sp dt s).score = s.score ∧
    (updateNote sp dt n).missed = true ∧
    (updateNote sp dt n).y = n.y + sp * dt * 60 ∧
    updateNote sp dt n ∈ (updateNotes sp dt s).notes ∧
    (updateNotes sp dt s).combo = 0 ∧
    (updateNotes sp dt s).comboMultiplier = 1 ∧
    updateNote sp dt2 (updateNote sp dt n) = updateNote sp dt n := by
  have hupd : updateNote sp dt n = ⟨n.lane, n.y + sp * dt * 60, n.hit, true⟩ := by
    simp [updateNote, hh, hm, hcross]
  have hany : s.notes.any (newlyMissed sp dt) = true := by
    refine List.any_eq_true.2 ⟨n, hn, ?_⟩
    simp [newlyMissed, hh, hm, hcross]
  refine ⟨by simp [updateNotes], by simp [hupd], by simp [hupd],
    List.mem_map_of_mem _ hn, by simp [updateNotes, hany], by simp [updateNotes, hany], ?_⟩
  rw [hupd]
  exact updateNote_terminal sp dt2 _ (Or.inr rfl)

/-- Witness for C4 at a concrete input: a note at `y = 740` advanced by
60 units crosses the `750` threshold. -/
theorem c4_witness :
    (updateNotes 1 1 ⟨[⟨0, 740, false, false⟩], 5, 3, 1⟩).score = 5 ∧
    (updateNote 1 1 ⟨0, 740, false, false⟩).missed = true ∧
    (updateNote 1 1 ⟨0, 740, false, false⟩).y = 740 + 1 * 1 * 60 ∧
    updateNote 1 1 ⟨0, 740, false, false⟩
      ∈ (updateNotes 1 1 ⟨[⟨0, 740, false, false⟩], 5, 3, 1⟩).notes ∧
    (updateNotes 1 1 ⟨[⟨0, 740, false, false⟩], 5, 3, 1⟩).combo = 0 ∧
    (updateNotes 1 1 ⟨[⟨0, 740, false, false⟩], 5, 3, 1⟩).comboMultiplier = 1 ∧
    updateNote 1 7 (updateNote 1 1 ⟨0, 740, false, false⟩)
      = updateNote 1 1 ⟨0, 740, false, false⟩ :=
  c4_miss_transition 1 1 7 ⟨[⟨0, 740, false, false⟩], 5, 3, 1⟩ ⟨0, 740, false, false⟩
    (List.mem_singleton.2 rfl) rfl rfl
    (by norm_num [HIT_ZONE_Y, HIT_TOLERANCE, WINDOW_HEIGHT])

/-! ## C5: hit and missed notes are frozen and retained -/

theorem markFirstHit_mem (lane : Nat) (l : List Note) (n : Note)
    (hn : n ∈ l) (hno : canHit lane n = false) :
    n ∈ (markFirstHit lane l).1 := by
  induction l with
  | nil => cases hn
  | cons m rest ih =>
    rcases List.mem_cons.1 hn with rfl | hmem
    · simp [markFirstHit, hno]
    · by_cases hc : canHit lane m = true
      · simpa [markFirstHit, hc] using Or.inr hmem
      · have hc' : canHit lane m = false := by simpa using hc
        simpa [markFirstHit, hc'] using Or.inr (ih hmem)

theorem canHit_terminal (lane : Nat) (n : Note)
    (h : n.hit = true ∨ n.missed = true) : canHit lane n = false := by
  rcases h with h | h <;> simp [canHit, h]

theorem hitNoteInLane_mem (lane : Nat) (s : GameState) (n : Note)
    (hn : n ∈ s.notes) (hterm : n.hit = true ∨ n.missed = true) :
    n ∈ (hitNoteInLane lane s).notes := by
  rw [hitNoteInLane_notes]
  exact markFirstHit_mem lane s.notes n hn (canHit_terminal lane n hterm)

theorem handleInput_mem (lanes : List Nat) (s : GameState) (n : Note)
    (hn : n ∈ s.notes) (hterm : n.hit = true ∨ n.missed = true) :
    n ∈ (handleInput lanes s).notes := by
  induction lanes generalizing s with
  | nil => exact hn
  | cons l rest ih =>
    exact ih (hitNoteInLane l s) (hitNoteInLane_mem l s n hn hterm)

theorem gameTick_mem (sp : ℚ) (inp : TickIn) (s : GameState) (n : Note)
    (hn : n ∈ s.notes) (hterm : n.hit = true ∨ n.missed = true)
    (hy : n.y < WINDOW_HEIGHT + 100) :
    n ∈ (gameTick sp inp s).notes := by
  have hspawn : n ∈ (match inp.spawnLane with
      | some l => spawnNote l s
      | none => s).notes := by
    cases inp.spawnLane with
    | none => exact hn
    | some l => exact List.mem_append_left _ hn
  have hupd : n ∈ (updateNotes sp inp.dt (match inp.spawnLane with
      | some l => spawnNote l s
      | none => s)).notes := by
    have := List.mem_map_of_mem (updateNote sp inp.dt) hspawn
    rwa [updateNote_terminal sp inp.dt n hterm] at this
  have hhit := handleInput_mem inp.pressedLanes _ n hupd hterm
  simp only [gameTick, removeOldNotes]
  exact List.mem_filter.2 ⟨hhit, by simpa using hy⟩

/-- C5: once a note is hit or missed, `update_notes` never changes it (in
particular its position is frozen), and if its frozen position is below
`WINDOW_HEIGHT + 100` it survives every subsequent tick (spawn,
`update_notes`, input handling and the old-note filter) for the rest of
the session. -/
theorem c5_terminal_notes_retained (sp dt : ℚ) (ticks : List TickIn)
    (s : GameState) (n : Note) (hn : n ∈ s.notes)
    (hterm : n.hit = true ∨ n.missed = true)
    (hy : n.y < WINDOW_HEIGHT + 100) :
    updateNote sp dt n = n ∧ n ∈ (runTicks sp ticks s).notes := by
  refine ⟨updateNote_terminal sp dt n hterm, ?_⟩
  induction ticks generalizing s with
  | nil => exact hn
  | cons inp rest ih =>
    exact ih (gameTick sp inp s) (gameTick_mem sp inp s n hn hterm hy)

/-- Witness for C5 at a concrete input: a hit note at `y = 700` survives a
tick with a spawn, a large delta and a pressed lane. -/
theorem c5_witness :
    updateNote 1 9 ⟨0, 700, true, false⟩ = ⟨0, 700, true, false⟩ ∧
    Note.mk 0 700 true false
      ∈ (runTicks 1 [⟨some 2, 9, [0]⟩] ⟨[⟨0, 700, true, false⟩], 1, 0, 1⟩).notes :=
  c5_terminal_notes_retained 1 9 [⟨some 2, 9, [0]⟩] ⟨[⟨0, 700, true, false⟩], 1, 0, 1⟩
    ⟨0, 700, true, false⟩ (List.mem_singleton.2 rfl) (Or.inl rfl)
    (by norm_num [WINDOW_HEIGHT])

/-! ## C6: `generate_chart` on a malformed summary -/

theorem generateChart_err_of_empty_energy (rand : ℕ → ℚ) (fuel : Nat)
    (a : Analysis) (difficulty : String) (hbpm : a.bpm ≠ 0)
    (hlev : a.energyLevels = []) (hdur : 0 < a.duration) (hfuel : 0 < fuel) :
    generateChart rand fuel a difficulty = .error .indexError := by
  obtain ⟨f, rfl⟩ : ∃ f, fuel = f + 1 := ⟨fuel - 1, by omega⟩
  have hget : pyGet a.energyLevels
      (min (pyInt 0) ((a.energyLevels.length : ℤ) - 1)) = .error .indexError := by
    rw [hlev]
    norm_num [pyGet, pyInt]
  have hloop : generateChartLoop rand a.duration a.bpm (60 / a.bpm)
      (densityMultiplier difficulty) difficulty a.energyLevels (f + 1) [] 0 0
        = .error .indexError := by
    rw [generateChartLoop, if_pos hdur, hget]
  simp only [generateChart]
  rw [if_neg hbpm, hloop]

/-- C6, amended: `generate_chart` applies no fallback to the built-in
default summary. Given a summary with an empty energy sequence (nonzero
bpm, positive duration), its first loop iteration reads
`energy_levels[-1]` on an empty list and fails with an `IndexError`
instead of returning a chart. -/
theorem c6_no_fallback_on_empty_energy (rand : ℕ → ℚ) (fuel : Nat)
    (a : Analysis) (difficulty : String) (hbpm : a.bpm ≠ 0)
    (hlev : a.energyLevels = []) (hdur : 0 < a.duration) (hfuel : 0 < fuel) :
    generateChart rand fuel a difficulty = .error .indexError :=
  generateChart_err_of_empty_energy rand fuel a difficulty hbpm hlev hdur hfuel

/-- Witness for C6's theorem at a concrete input. -/
theorem c6_witness :
    generateChart (fun _ => 0) 1 ⟨180, 120, []⟩ "Easy" = .error .indexError :=
  c6_no_fallback_on_empty_energy (fun _ => 0) 1 ⟨180, 120, []⟩ "Easy"
    (by norm_num) rfl (by norm_num) (by norm_num)

/-- Counterexample to C6 as stated: on the malformed summary with an empty
energy sequence, `generate_chart` raises an `IndexError` rather than
falling back to the default summary and returning a chart. -/
theorem c6_counterexample :
    generateChart (fun _ => 1/2) 100 ⟨180, 120, []⟩ "Normal"
      = .error .indexError :=
  generateChart_err_of_empty_energy (fun _ => 1/2) 100 ⟨180, 120, []⟩ "Normal"
    (by norm_num) rfl (by norm_num) (by norm_num)

/-! ## C7: quality changes and the cooldown -/

/-- C7, amended: the quality controller never changes the quality level
(nor the adjustment timestamp) while on cooldown, i.e. when at most 2
seconds have elapsed since the last adjustment; the buffer still absorbs
the new frame. There is no full-window requirement: off cooldown the level
can change with as little as one buffered frame (see the counterexample). -/
theorem c7_no_quality_change_on_cooldown (m : PerfMonitor) (dt now : ℚ)
    (h : now - m.lastAdjustment ≤ 2) :
    m.update dt now = .ok ⟨pushFrame m.frameTimes dt, m.qualityLevel, m.lastAdjustment⟩ := by
  unfold PerfMonitor.update
  rw [if_neg (not_lt.2 h)]

/-- Witness for C7's theorem at a concrete input. -/
theorem c7_witness :
    PerfMonitor.update ⟨[], Quality.high, 0⟩ (1/60) 1
      = .ok ⟨pushFrame [] (1/60), Quality.high, 0⟩ :=
  c7_no_quality_change_on_cooldown ⟨[], Quality.high, 0⟩ (1/60) 1 (by norm_num)

/-- Counterexample to C7 as stated: off cooldown, a buffer holding a
single frame (far short of the 60-frame window) already changes the
quality level from high to medium. -/
theorem c7_counterexample :
    PerfMonitor.update ⟨[], Quality.high, 0⟩ (1/25) 3
        = .ok ⟨[1/25], Quality.medium, 3⟩ ∧
      (pushFrame [] (1/25)).length = 1 := by
  constructor
  · norm_num [PerfMonitor.update, pushFrame, avgFps]
  · norm_num [pushFrame]

/-! ## C8: the three quality transitions -/

theorem update_quality_cases (m : PerfMonitor) (dt now : ℚ) (m2 : PerfMonitor)
    (hok : m.update dt now = .ok m2) :
    m2.qualityLevel = m.qualityLevel ∨
    (m.qualityLevel = Quality.high ∧ m2.qualityLevel = Quality.medium ∧
      avgFps (pushFrame m.frameTimes dt) < 45) ∨
    (m.qualityLevel = Quality.medium ∧ m2.qualityLevel = Quality.low ∧
      avgFps (pushFrame m.frameTimes dt) < 30) ∨
    (m.qualityLevel = Quality.medium ∧ m2.qualityLevel = Quality.high ∧
      55 < avgFps (pushFrame m.frameTimes dt)) := by
  simp only [PerfMonitor.update] at hok
  split at hok
  · split at hok
    · exact absurd hok (by simp)
    · split at hok
      · rename_i hcond
        obtain rfl := (Except.ok.inj hok).symm
        exact Or.inr (Or.inl ⟨hcond.2, rfl, hcond.1⟩)
      · split at hok
        · rename_i hcond
          obtain rfl := (Except.ok.inj hok).symm
          exact Or.inr (Or.inr (Or.inl ⟨hcond.2, rfl, hcond.1⟩))
        · split at hok
          · rename_i hcond
            obtain rfl := (Except.ok.inj hok).symm
            exact Or.inr (Or.inr (Or.inr ⟨hcond.2, rfl, hcond.1⟩))
          · obtain rfl := (Except.ok.inj hok).symm
            exact Or.inl rfl
  · obtain rfl := (Except.ok.inj hok).symm
    exact Or.inl rfl

/-- C8: the only quality transitions are high→medium when the average fps
is below 45, medium→low when it is below 30, and medium→high when it is
above 55; consequently the low level is absorbing over any run of updates;
and from high with 60 buffered frames of `dt = 0.04` (25 fps), one
evaluation off cooldown moves the level to medium, not directly to low. -/
theorem c8_only_three_transitions :
    (∀ (m : PerfMonitor) (dt now : ℚ) (m2 : PerfMonitor),
      m.update dt now = .ok m2 → m2.qualityLevel ≠ m.qualityLevel →
      ((m.qualityLevel = Quality.high ∧ m2.qualityLevel = Quality.medium ∧
          avgFps (pushFrame m.frameTimes dt) < 45) ∨
       (m.qualityLevel = Quality.medium ∧ m2.qualityLevel = Quality.low ∧
          avgFps (pushFrame m.frameTimes dt) < 30) ∨
       (m.qualityLevel = Quality.medium ∧ m2.qualityLevel = Quality.high ∧
          55 < avgFps (pushFrame m.frameTimes dt)))) ∧
    (∀ (m : PerfMonitor) (samples : List (ℚ × ℚ)) (m2 : PerfMonitor),
      runMonitor m samples = .ok m2 → m.qualityLevel = Quality.low →
      m2.qualityLevel = Quality.low) ∧
    PerfMonitor.update ⟨List.replicate 60 (1/25), Quality.high, 0⟩ (1/25) 3
      = .ok ⟨List.replicate 60 (1/25), Quality.medium, 3⟩ := by
  refine ⟨?_, ?_, ?_⟩
  · intro m dt now m2 hok hne
    rcases update_quality_cases m dt now m2 hok with h | h
    · exact absurd h hne
    · exact h
  · intro m samples
    induction samples generalizing m with
    | nil =>
      intro m2 hok hlow
      simp only [runMonitor] at hok
      obtain rfl := (Except.ok.inj hok).symm
      exact hlow
    | cons sample rest ih =>
      intro m2 hok hlow
      obtain ⟨dt, now⟩ := sample
      simp only [runMonitor] at hok
      cases hstep : m.update dt now with
      | error e => rw [hstep] at hok; exact absurd hok (by simp)
      | ok m1 =>
        rw [hstep] at hok
        have hm1 : m1.qualityLevel = Quality.low := by
          rcases update_quality_cases m dt now m1 hstep with h | h | h | h
          · rw [h, hlow]
          · rw [hlow] at h; exact absurd h.1 (by simp)
          · rw [hlow] at h; exact absurd h.1 (by simp)
          · rw [hlow] at h; exact absurd h.1 (by simp)
        exact ih m1 m2 hok hm1
  · have hpush : pushFrame (List.replicate 60 ((1 : ℚ)/25)) (1/25)
        = List.replicate 60 ((1 : ℚ)/25) := by
      rw [pushFrame, ← List.replicate_succ']
      norm_num [List.replicate_succ]
    have hsum : (List.replicate 60 ((1 : ℚ)/25)).sum = 12/5 := by
      rw [List.sum_replicate]
      norm_num
    norm_num [PerfMonitor.update, hpush, avgFps, hsum]

/-- Witness for C8's theorem at a concrete input: a monitor already at low
quality stays low across a run with one update. -/
theorem c8_witness :
    (PerfMonitor.mk [(1 : ℚ)/60] Quality.low 0).qualityLevel = Quality.low :=
  c8_only_three_transitions.2.1 ⟨[], Quality.low, 0⟩ [((1 : ℚ)/60, 3)]
    ⟨[(1 : ℚ)/60], Quality.low, 0⟩
    (by norm_num [runMonitor, PerfMonitor.update, pushFrame, avgFps]; rfl) rfl

/-! ## C9 and C10: `remove_duplicate_notes` -/

theorem foldl_dedupFold (g : ℚ) (rest : List ChartNote) (last : ChartNote)
    (acc : List ChartNote) :
    rest.foldl (dedupFold g) (last :: acc)
      = (keepRule g last rest).reverse ++ last :: acc := by
  induction rest generalizing last acc with
  | nil => simp [keepRule]
  | cons note rrest ih =>
    simp only [List.foldl_cons, dedupFold, keepRule]
    by_cases hc : g ≤ note.time - last.time ∧
        (g * 2 ≤ note.time - last.time ∨ note.lane ≠ last.lane)
    · rw [if_pos hc, if_pos hc, ih]
      simp
    · rw [if_neg hc, if_neg hc, ih]

theorem removeDuplicateNotes_eq_dedupSpec (notes : List ChartNote) (g : ℚ) :
    removeDuplicateNotes notes g = dedupSpec g notes := by
  match notes with
  | [] => rfl
  | [a] => rfl
  | a :: b :: rest =>
    have hlen2 : ¬((a :: b :: rest).length ≤ 1) := by simp
    rw [removeDuplicateNotes, if_neg hlen2, dedupSpec]
    cases hsort : sortByTime (a :: b :: rest) with
    | nil => rfl
    | cons first srest =>
      show (srest.foldl (dedupFold g) [first]).reverse = first :: keepRule g first srest
      rw [foldl_dedupFold g srest first []]
      simp

/-- C9: `remove_duplicate_notes` agrees with the spec's dedup rule on
every input — sort by time ascending, always keep the first note, and keep
a subsequent note exactly when its gap to the previously kept note is at
least `minGap` and either at least `2 * minGap` or on a different lane —
and on the concrete input `[(t 1.0, lane 0), (t 1.05, lane 0),
(t 2.0, lane 1)]` with `minGap = 0.1` it drops the middle note. -/
theorem c9_dedup_rule (notes : List ChartNote) (minGap : ℚ) :
    removeDuplicateNotes notes minGap = dedupSpec minGap notes ∧
    removeDuplicateNotes [⟨1, 0, 0⟩, ⟨21/20, 0, 0⟩, ⟨2, 1, 0⟩] (1/10)
      = [⟨1, 0, 0⟩, ⟨2, 1, 0⟩] := by
  refine ⟨removeDuplicateNotes_eq_dedupSpec notes minGap, ?_⟩
  norm_num [removeDuplicateNotes, sortByTime, insertByTime, dedupFold]

/-- C10, amended: on `[(t 0, lane 0), (t 0.12, lane 1), (t 0.20, lane 0)]`
with `minGap = 0.1`, `remove_duplicate_notes` keeps the first two notes
and drops the third, whose gap to the previously kept note is
`0.20 - 0.12 = 0.08 < 0.1`, regardless of its lane. -/
theorem c10_third_note_dropped :
    removeDuplicateNotes [⟨0, 0, 0⟩, ⟨3/25, 1, 0⟩, ⟨1/5, 0, 0⟩] (1/10)
      = [⟨0, 0, 0⟩, ⟨3/25, 1, 0⟩] := by
  norm_num [removeDuplicateNotes, sortByTime, insertByTime, dedupFold]

/-- Counterexample to C10 as stated: the output is not the full
three-note list, i.e. not all three notes are kept. -/
theorem c10_counterexample :
    ¬(removeDuplicateNotes [⟨0, 0, 0⟩, ⟨3/25, 1, 0⟩, ⟨1/5, 0, 0⟩] (1/10)
      = [⟨0, 0, 0⟩, ⟨3/25, 1, 0⟩, ⟨1/5, 0, 0⟩]) := by
  norm_num [removeDuplicateNotes, sortByTime, insertByTime, dedupFold]

end RhythmGame
